import Mathlib

/-!
Verification development for the scikit-learn adapter of the Vowpal Wabbit
online-learning engine (`python/sklearn_vw.py`).

The Python module is shallowly embedded below:
  * `tovw` — the format converter turning dense/sparse rows plus optional
    labels and weights into VW-format text lines;
  * `VW.init` / `VW.fit` / `VW.predict` / `VW.transform` / `VW.get_params` /
    `VW.set_params` — the estimator adapter and its lifecycle.

Python floats are modelled as rationals; Python exceptions are modelled with
`Except PyErr`.  The external engine (`pyvw.vw`, part of the repository but
outside the sources provided here) is modelled from the spec, as marked on
each such definition.
-/

set_option maxRecDepth 4000

/-- Decidable equality for `Except`, for evaluating the embedding on
concrete inputs. -/
def exceptDecEq [DecidableEq ε] [DecidableEq α] : DecidableEq (Except ε α)
  | .error a, .error b =>
    if h : a = b then .isTrue (h ▸ rfl)
    else .isFalse (fun c => h (Except.error.inj c))
  | .error _, .ok _ => .isFalse (fun c => Except.noConfusion c)
  | .ok _, .error _ => .isFalse (fun c => Except.noConfusion c)
  | .ok a, .ok b =>
    if h : a = b then .isTrue (h ▸ rfl)
    else .isFalse (fun c => h (Except.ok.inj c))

instance [DecidableEq ε] [DecidableEq α] : DecidableEq (Except ε α) :=
  exceptDecEq

/-- Python exception kinds reachable in the embedded fragment. -/
inductive PyErr where
  | typeError
  | indexError
  | valueError
  | notFittedError
  | handleFinished
deriving DecidableEq, Repr

/-- Python values appearing as configuration values, labels and weights:
strings, ints, bools and floats (floats modelled as rationals). -/
inductive Value where
  | str (s : String)
  | int (n : Int)
  | bool (b : Bool)
  | float (q : Rat)
deriving DecidableEq, Repr

/-- Smallest number of decimal digits after the point that renders `q`
exactly (its reduced denominator divides `10^k`), searched up to 16 (the
precision budget of the `%.16g` directive used by the sparse dump).
`none` for rationals with no terminating decimal expansion in that budget;
the claims only evaluate on terminating values. -/
def decDigits (q : Rat) : Option Nat :=
  (List.range 17).find? (fun k => 10 ^ k % q.den = 0)

/-- Left-pad a digit string with zeros up to width `k`. -/
def padZeros (s : String) (k : Nat) : String :=
  String.mk (List.replicate (k - s.length) '0') ++ s

/-- The integer `q * 10^k`, for `k` digits with `q.den` dividing `10^k`. -/
def decScaled (q : Rat) (k : Nat) : Int :=
  q.num * ((10 ^ k / q.den : Nat) : Int)

/-- Render `q` with exactly `k` digits after the decimal point
(`q * 10^k` is assumed integral); `k = 0` renders with no point. -/
def decRender (q : Rat) (k : Nat) : String :=
  let n : Int := decScaled q k
  let sign : String := if n < 0 then "-" else ""
  let a : Nat := n.natAbs
  if k = 0 then sign ++ toString a
  else sign ++ toString (a / 10 ^ k) ++ "." ++ padZeros (toString (a % 10 ^ k)) k

/-- C `%.16g` formatting as used by sklearn's `dump_svmlight_file` for
feature values: minimal decimal form, no trailing zeros, no point for
integral values (`1.0 ↦ "1"`, `3.4 ↦ "3.4"`). -/
def fmtG16 (q : Rat) : String :=
  match decDigits q with
  | some k => decRender q k
  | none => "?"

/-- Python 2 `str`/`format` of a float: always keeps a decimal point
(`1.0 ↦ "1.0"`, `2.5 ↦ "2.5"`). -/
def pyFloatRepr (q : Rat) : String :=
  match decDigits q with
  | some 0 => decRender q 0 ++ ".0"
  | some k => decRender q k
  | none => "?"

/-- Python `'{}'.format(v)` for the value kinds of the embedding. -/
def Value.fmt : Value → String
  | .str s => s
  | .int n => toString n
  | .bool b => if b then "True" else "False"
  | .float q => pyFloatRepr q

/-- Python truthiness of a `Value` (used for `if self.convert_to_vw_:`). -/
def pyTruthy : Value → Bool
  | .str s => s ≠ ""
  | .int n => n ≠ 0
  | .bool b => b
  | .float q => q ≠ 0

/-- Python dicts with string keys as association lists (first match wins on
lookup, as keys are unique in every reachable dict). -/
abbrev PMap := List (String × Value)

/-- Dict lookup: first entry with the given key. -/
def plookup : PMap → String → Option Value
  | [], _ => none
  | p :: rest, k => if p.1 = k then some p.2 else plookup rest k

/-- Dict assignment `m[k] = v`: replace the first binding of `k`, or append. -/
def pset : PMap → String → Value → PMap
  | [], k, v => [(k, v)]
  | p :: rest, k, v => if p.1 = k then (k, v) :: rest else p :: pset rest k v

/-- Dict deletion (used for `dict.pop`): drop the bindings of `k`. -/
def premove : PMap → String → PMap
  | [], _ => []
  | p :: rest, k => if p.1 = k then premove rest k else p :: premove rest k

/-- Python list/array indexing: `IndexError` when out of range. -/
def pyIndex (l : List α) (i : Nat) : Except PyErr α :=
  match l.get? i with
  | some v => Except.ok v
  | none => Except.error PyErr.indexError

/-- The module constant `INVALID_CHARS = re.compile(r"[\|: \n]+")`: character
class of the engine-reserved delimiters. -/
def invalidChar (c : Char) : Bool :=
  c = '|' || c = ':' || c = ' ' || c = '\n'

/-- Core of `INVALID_CHARS.sub('.', s)`: each maximal run of reserved
characters becomes a single `'.'`.  The flag records whether the previous
character belonged to a run. -/
def invalidSub : List Char → Bool → List Char
  | [], _ => []
  | c :: rest, prevRun =>
    if invalidChar c then
      (if prevRun then [] else ['.']) ++ invalidSub rest true
    else c :: invalidSub rest false

/-- Substitution `INVALID_CHARS.sub('.', s)` on a whole string. -/
def pySub (s : String) : String :=
  String.mk (invalidSub s.data false)

/-- One maximal split: Python `s.split(sep, 1)` helper over char lists,
returning the pieces around the first occurrence of `sep`. -/
def splitOnceAux (sep : List Char) : List Char → Option (List Char × List Char)
  | [] => none
  | c :: rest =>
    if List.isPrefixOf sep (c :: rest) then some ([], (c :: rest).drop sep.length)
    else
      match splitOnceAux sep rest with
      | some (pre, post) => some (c :: pre, post)
      | none => none

/-- Python `s.split(sep, 1)`: two pieces when `sep` occurs, else the whole
string (for the nonempty separators used by `tovw`). -/
def pySplit1 (sep s : String) : List String :=
  match splitOnceAux sep.data s.data with
  | some (pre, post) => [String.mk pre, String.mk post]
  | none => [s]

/-- Nonzero entries of a dense row with their 0-based column indices:
`zip(np.where(X[i] != 0)[0], X[i, X[i] != 0])` of the sparse dump. -/
def sparsePairs (r : List Rat) : List (Nat × Rat) :=
  r.enum.filter (fun p => p.2 ≠ 0)

/-- One `idx:value` token of the dump, `"%d:%.16g" % (j, x)` with the
0-based index `j` (`dump_svmlight_file`'s default `zero_based=True`). -/
def pairStr (p : Nat × Rat) : String :=
  toString p.1 ++ ":" ++ fmtG16 p.2

/-- Feature section of one dumped svmlight row. -/
def featStr (r : List Rat) : String :=
  String.intercalate " " ((sparsePairs r).map pairStr)

/-- Modelled from the library: one output line of sklearn's
`dump_svmlight_file(x, np.zeros(rows), s)` for a dense row, without the
trailing newline.  The label column is the dumped `0` (`"%.16g" % 0.0`),
followed by the nonzero `idx:value` pairs with 0-based indices. -/
def svmRow (r : List Rat) : String :=
  "0 " ++ featStr r

/-- The module constant `DEFAULT_NS = ''`. -/
def DEFAULT_NS : String := ""

/-- The formatted output line `'{y} {w} |{ns} {x}'` of `tovw`. -/
def vwLine (truth weight : Value) (features : String) : String :=
  truth.fmt ++ " " ++ weight.fmt ++ " |" ++ DEFAULT_NS ++ " " ++ features

/-- Label argument of `tovw`: a scalar (0-d array, reshaped to one element)
or a vector. -/
inductive PyArr where
  | scalar (v : Value)
  | vec (l : List Value)
deriving DecidableEq

/-- The `y.reshape(1)` promotion: a 0-d array becomes a 1-element array. -/
def PyArr.to1d : PyArr → List Value
  | .scalar v => [v]
  | .vec l => l

/-- Feature-matrix argument of `tovw` after `np.array` conversion: a 1-D
numeric row (reshaped to `1 × F`), a 2-D numeric matrix, or a 2-D string
matrix (numpy dtype char `'S'`). -/
inductive PyMat where
  | num1 (r : List Rat)
  | num2 (xss : List (List Rat))
  | str2 (xss : List (List String))
deriving DecidableEq

/-- All rows of equal length (ragged nested lists do not form a numeric
numpy matrix; the later dump step rejects the resulting object array). -/
def rectangular : List (List Rat) → Bool
  | [] => true
  | r :: rest => rest.all (fun q => q.length = r.length)

/-- The output loop of `tovw`: `for idx, row in enumerate(rows)` with
`truth = y[idx] if use_truth else 1`, `weight = sample_weight[idx] if
use_weight else 1`, `features = row.split('0 ', 1)[1]`, collecting
`'{y} {w} |{ns} {x}'` lines.  Indexing faults propagate as exceptions. -/
def tovwFormat (yArr : List Value) (use_truth : Bool) (wArr : List Value)
    (use_weight : Bool) : Nat → List String → Except PyErr (List String)
  | _, [] => Except.ok []
  | idx, row :: rest => do
    let truth ← if use_truth then pyIndex yArr idx else Except.ok (Value.int 1)
    let weight ← if use_weight then pyIndex wArr idx else Except.ok (Value.int 1)
    let features ← pyIndex (pySplit1 "0 " row) 1
    let out ← tovwFormat yArr use_truth wArr use_weight (idx + 1) rest
    Except.ok (vwLine truth weight features :: out)

/-- The format converter `tovw(x, y=None, sample_weight=None)`.

Faithful to the source:
  * `use_truth`/`use_weight` from argument presence; a 1-D `x` is reshaped
    to `1 × F`; a scalar `y` is reshaped to a 1-element vector;
  * a string-dtype matrix takes the sanitization branch, whose loop
    `for row in rows` iterates the *integer* row count `rows` and therefore
    raises `TypeError` before any substitution happens;
  * numeric input is dumped to svmlight text (`svmRow`, one line per row;
    an empty input is 1-D for numpy and reshapes to a single empty row) and
    re-parsed by `tovwFormat`. -/
def tovw (x : PyMat) (y : Option PyArr) (sample_weight : Option (List Value)) :
    Except PyErr (List String) :=
  let use_truth := y.isSome
  let use_weight := sample_weight.isSome
  let yArr : List Value := (y.map PyArr.to1d).getD []
  let wArr : List Value := sample_weight.getD []
  match x with
  | .str2 _ => Except.error PyErr.typeError
  | .num1 r => tovwFormat yArr use_truth wArr use_weight 0 ([r].map svmRow)
  | .num2 xss =>
    if rectangular xss then
      tovwFormat yArr use_truth wArr use_weight 0
        ((if xss = [] then [([] : List Rat)] else xss).map svmRow)
    else Except.error PyErr.valueError

/-- Modelled from the spec: the external engine handle (`pyvw.vw`, part of
the repository but not among the provided sources; spec §6).  It carries the
`finished` flag (`handle.finish()` / `handle.isFinished()`), the lines
trained on via `handle.learn`, the lines scored as test-only examples, and
a count of weight-updating submissions (test-only examples update no
weights). -/
structure Handle where
  finished : Bool
  learned : List String
  tested : List String
  weightUpdates : Nat
deriving DecidableEq, Repr

/-- A freshly created engine instance: `vw(**self.params)`. -/
def Handle.new : Handle :=
  { finished := false, learned := [], tested := [], weightUpdates := 0 }

/-- State of the `VW` estimator adapter: the vw parameter dict, the two
adapter-only attributes `passes_` and `convert_to_vw_`, the lazily bound
handle `vw_`, and the fitted flag (`fit_` exists iff `fit` completed, so it
is modelled as a Bool). -/
structure VWState where
  params : PMap
  passes_ : Value
  convert_to_vw_ : Value
  vw_ : Option Handle
  fit_ : Bool
deriving DecidableEq, Repr

/-- Method `VW.get_vw`: return the bound handle, creating one from the current
parameters when unbound (`if self.vw_ is None: self.vw_ = vw(**self.params)`). -/
def VWState.get_vw (s : VWState) : Handle × VWState :=
  match s.vw_ with
  | some h => (h, s)
  | none => (Handle.new, { s with vw_ := some Handle.new })

/-- Call `self.get_vw().learn(x)`.  Modelled from the spec: learning on a
finalized handle fails at the handle layer (spec §7, `HandleFinishedError`);
otherwise the line is trained on and weights are updated. -/
def hLearn (s : VWState) (line : String) : Except PyErr VWState :=
  let (h, s1) := s.get_vw
  if h.finished then Except.error PyErr.handleFinished
  else
    Except.ok { s1 with vw_ := some { h with
      learned := h.learned ++ [line],
      weightUpdates := h.weightUpdates + 1 } }

/-- A per-row example object of `predict` (`ex = self.get_vw().example(x)`). -/
structure VWExample where
  line : String
  test_only : Bool
deriving DecidableEq

/-- Call `self.get_vw().example(x)`.  Modelled from the spec: parsing an example
on a finalized handle fails at the handle layer (spec §7); a fresh example
is not yet test-only. -/
def mkExample (s : VWState) (line : String) : Except PyErr (VWExample × VWState) :=
  let (h, s1) := s.get_vw
  if h.finished then Except.error PyErr.handleFinished
  else Except.ok ({ line := line, test_only := false }, s1)

/-- Call `ex.set_test_only(True)`. -/
def VWExample.setTestOnly (ex : VWExample) (b : Bool) : VWExample :=
  { ex with test_only := b }

/-- Call `ex.learn()`.  Modelled from the spec: a test-only example is scored
without updating weights; a non-test-only example trains the model. -/
def exLearn (ex : VWExample) (s : VWState) : VWState :=
  match s.vw_ with
  | none => s
  | some h =>
    if ex.test_only then
      { s with vw_ := some { h with tested := h.tested ++ [ex.line] } }
    else
      { s with vw_ := some { h with
        learned := h.learned ++ [ex.line],
        weightUpdates := h.weightUpdates + 1 } }

/-- Modelled from the spec: `ex.get_multiclass_prediction()`.  The value is
engine-internal (out-of-scope training math); the claims never constrain it. -/
def mcPrediction : Rat := 0

/-- Modelled from the spec: `ex.get_simplelabel_prediction()`.  The value is
engine-internal; the claims never constrain it. -/
def slPrediction : Rat := 0

/-- Call `self.get_vw().finish()`.  Modelled from the spec: idempotent-checked
finalize, leaving the handle in the finished state. -/
def hFinish (s : VWState) : VWState :=
  let (h, s1) := s.get_vw
  { s1 with vw_ := some { h with finished := true } }

/-- The parameter names of `VW.__init__`; any other keyword raises
`TypeError` at the call. -/
def validKeys : List String :=
  ["probabilities", "random_seed", "ring_size", "convert_to_vw", "bfgs",
   "mem", "learning_rate", "l", "power_t", "decay_learning_rate",
   "initial_t", "feature_mask", "initial_regressor", "i", "initial_weight",
   "random_weights", "input_feature_regularizer", "audit", "a", "progress",
   "P", "quiet", "no_stdin", "hash", "ignore", "keep", "redefine",
   "bit_precision", "b", "noconstant", "constant", "C", "ngram", "skips",
   "feature_limit", "affix", "spelling", "dictionary", "dictionary_path",
   "interactions", "permutations", "leave_duplicate_interactions",
   "quadratic", "q", "cubic", "testonly", "t", "min_prediction",
   "max_prediction", "sort_features", "loss_function", "link",
   "quantile_tau", "l1", "l2", "named_labels", "final_regressor", "f",
   "readable_model", "invert_hash", "passes", "save_resume",
   "output_feature_regularizer_binary", "output_feature_regularizer_text",
   "oaa"]

/-- Membership in the `VW.__init__` keyword list. -/
def validKey (k : String) : Bool :=
  validKeys.contains k

/-- Constructor `VW.__init__(**args)` with the provided (non-`None`) keyword arguments.
Clears the fitted flag and the bound handle, resets `self.params` to
`{'quiet': True}`, assigns every provided argument into the dict, then pops
`passes` (default `1`) and `convert_to_vw` (default `True`) into
adapter-only attributes.  An unknown keyword raises `TypeError` at the
call, before the body runs. -/
def VW.init (args : PMap) : Except PyErr VWState :=
  if args.all (fun p => validKey p.1) then
    let params0 := args.foldl (fun m p => pset m p.1 p.2) [("quiet", Value.bool true)]
    let passesV := (plookup params0 "passes").getD (Value.int 1)
    let params1 := premove params0 "passes"
    let convertV := (plookup params1 "convert_to_vw").getD (Value.bool true)
    let params2 := premove params1 "convert_to_vw"
    Except.ok { params := params2, passes_ := passesV, convert_to_vw_ := convertV,
                vw_ := none, fit_ := false }
  else Except.error PyErr.typeError

/-- Method `VW.get_params`: the vw parameter dict plus the `passes` and
`convert_to_vw` adapter attributes. -/
def VW.get_params (s : VWState) : PMap :=
  s.params ++ [("passes", s.passes_), ("convert_to_vw", s.convert_to_vw_)]

/-- Method `VW.set_params(**params)`: merge the updates into `self.params`, put the
current `passes`/`convert_to_vw` back unless they are among the updates,
then rebuild the whole adapter with `self.__init__(**self.params)`. -/
def VW.set_params (U : PMap) (s : VWState) : Except PyErr VWState :=
  let p1 := U.foldl (fun m p => pset m p.1 p.2) s.params
  let p2 := if plookup U "passes" = none then pset p1 "passes" s.passes_ else p1
  let p3 := if plookup U "convert_to_vw" = none then pset p2 "convert_to_vw" s.convert_to_vw_ else p2
  VW.init p3

/-- Elements of the iterable `X` handed to `fit`/`predict`: a numeric row
(the rows of a 2-D array) or an already-formatted line string. -/
inductive XElem where
  | nrow (r : List Rat)
  | sline (s : String)
deriving DecidableEq

/-- Loop bound `xrange(self.passes_)`: the number of passes; a non-integral `passes`
value raises `TypeError`. -/
def pyRangeCount : Value → Except PyErr Nat
  | .int n => Except.ok n.toNat
  | .bool b => Except.ok (if b then 1 else 0)
  | .str _ => Except.error PyErr.typeError
  | .float _ => Except.error PyErr.typeError

/-- The line submitted for one row of `fit`:
`x = tovw(x=x, y=y[idx], sample_weight=sample_weight)[0]` when the
convert flag is truthy (note: the *whole* `sample_weight` vector is passed
to every per-row call), else the row itself, which must already be a
formatted line string.  `y[idx]` with `y = None` raises `TypeError`;
`tovw` on a single string is 0-d after `np.array` and fails to unpack
`x.shape` (`ValueError`). -/
def VW.fitRowLine (s : VWState) (idx : Nat) (x : XElem) (y : Option (List Value))
    (sample_weight : Option (List Value)) : Except PyErr String :=
  if pyTruthy s.convert_to_vw_ then do
    let yv ← match y with
      | none => Except.error PyErr.typeError
      | some ys => pyIndex ys idx
    match x with
    | .nrow r => do
      let ls ← tovw (.num1 r) (some (.scalar yv)) sample_weight
      pyIndex ls 0
    | .sline _ => Except.error PyErr.valueError
  else
    match x with
    | .sline str => Except.ok str
    | .nrow _ => Except.error PyErr.typeError

/-- One pass of `fit`: `for idx, x in enumerate(X)`, convert (if flagged)
and `self.get_vw().learn(x)`. -/
def VW.fitPass (y : Option (List Value)) (sample_weight : Option (List Value)) :
    Nat → List XElem → VWState → Except PyErr VWState
  | _, [], s => Except.ok s
  | idx, x :: rest, s => do
    let line ← VW.fitRowLine s idx x y sample_weight
    let s1 ← hLearn s line
    VW.fitPass y sample_weight (idx + 1) rest s1

/-- The `for _ in xrange(self.passes_)` loop of `fit`. -/
def VW.fitLoop (X : List XElem) (y : Option (List Value))
    (sample_weight : Option (List Value)) : Nat → VWState → Except PyErr VWState
  | 0, s => Except.ok s
  | n + 1, s => do
    let s1 ← VW.fitPass y sample_weight 0 X s
    VW.fitLoop X y sample_weight n s1

/-- Method `VW.fit(X, y=None, sample_weight=None)`: run `passes` training passes
over `X` in order, then set the fitted flag and return the adapter. -/
def VW.fit (X : List XElem) (y : Option (List Value))
    (sample_weight : Option (List Value)) (s : VWState) : Except PyErr VWState := do
  let n ← pyRangeCount s.passes_
  let s1 ← VW.fitLoop X y sample_weight n s
  Except.ok { s1 with fit_ := true }

/-- One row of `predict`: convert (if flagged) with *no* label/weight
arguments, parse a test-only example, score it, read back the multiclass
prediction when `'oaa' in self.params` else the scalar prediction, and
release the example. -/
def VW.predictRow (s : VWState) (x : XElem) : Except PyErr (Rat × VWState) := do
  let line ← if pyTruthy s.convert_to_vw_ then
      match x with
      | .nrow r => do
        let ls ← tovw (.num1 r) none none
        pyIndex ls 0
      | .sline _ => Except.error PyErr.valueError
    else
      match x with
      | .sline str => Except.ok str
      | .nrow _ => Except.error PyErr.typeError
  let exs ← mkExample s line
  let ex := exs.1.setTestOnly true
  let s2 := exLearn ex exs.2
  let pred := if (plookup s2.params "oaa").isSome then mcPrediction else slPrediction
  Except.ok (pred, s2)

/-- The `for idx, x in enumerate(X)` loop of `predict`, collecting the
output vector in input order. -/
def VW.predictLoop (s : VWState) : List XElem → Except PyErr (List Rat × VWState)
  | [] => Except.ok ([], s)
  | x :: rest => do
    let ps ← VW.predictRow s x
    let rs ← VW.predictLoop ps.2 rest
    Except.ok (ps.1 :: rs.1, rs.2)

/-- Method `VW.predict(X)`: `check_is_fitted(self, 'fit_')` raises
`NotFittedError` when the fitted flag is unset; otherwise score every row
and finally `self.get_vw().finish()`. -/
def VW.predict (X : List XElem) (s : VWState) : Except PyErr (List Rat × VWState) :=
  if s.fit_ = false then Except.error PyErr.notFittedError
  else do
    let rs ← VW.predictLoop s X
    Except.ok (rs.1, hFinish rs.2)

/-- Method `VW.transform(X, y=None)`: `if not self.get_vw().finished:
self.get_vw().finish()`, then return `X` unchanged. -/
def VW.transform (X : α) (s : VWState) : α × VWState :=
  let (h, s1) := s.get_vw
  if h.finished = false then (X, hFinish s1) else (X, s1)

/-- The adapter state produced by `VW()` with no arguments: quiet mode on,
one pass, conversion on, unbound handle, not fitted. -/
def sDefault : VWState :=
  { params := [("quiet", Value.bool true)], passes_ := Value.int 1,
    convert_to_vw_ := Value.bool true, vw_ := none, fit_ := false }

/-- The inference-mode line of one converted row of `predict`. -/
def predLine (r : List Rat) : String :=
  vwLine (Value.int 1) (Value.int 1) (featStr r)

/-- The prediction value read back for one row (engine-internal). -/
def predVal (s : VWState) : Rat :=
  if (plookup s.params "oaa").isSome then mcPrediction else slPrediction

/-- First-some choice on options (`x if x is not None else y`). -/
def optOr (a b : Option Value) : Option Value :=
  match a with
  | some v => some v
  | none => b

/-- Value of `self.params` after the update loop of `set_params`
(`self.params.update(params)`). -/
def updMap (U : PMap) (s : VWState) : PMap :=
  U.foldl (fun m p => pset m p.1 p.2) s.params

/-- The dict after `set_params` restores `passes` when absent from the
updates. -/
def updMapP (U : PMap) (s : VWState) : PMap :=
  if plookup U "passes" = none then pset (updMap U s) "passes" s.passes_
  else updMap U s

/-- The dict `set_params` hands back to `self.__init__(**self.params)`:
the updates merged over the previous vw params, with `passes` and
`convert_to_vw` restored from the adapter attributes when absent from the
updates. -/
def mergedMap (U : PMap) (s : VWState) : PMap :=
  if plookup U "convert_to_vw" = none then
    pset (updMapP U s) "convert_to_vw" s.convert_to_vw_
  else updMapP U s

/-- Value of `self.params` of `__init__` after the assignment loop, before the two
pops: `{'quiet': True}` updated with every provided argument. -/
def initParams0 (args : PMap) : PMap :=
  args.foldl (fun m p => pset m p.1 p.2) [("quiet", Value.bool true)]

/-- A fitted adapter state with a bound, still-unfinished handle, as left
by a successful `fit` (used to instantiate lifecycle claims). -/
def sFitted : VWState :=
  { sDefault with vw_ := some Handle.new, fit_ := true }

/-- A concrete constructed adapter (quiet default plus one engine option)
used to instantiate the parameter-merging claim. -/
def s6 : VWState :=
  { params := [("quiet", Value.bool true), ("l2", Value.str "0.5")],
    passes_ := Value.int 1, convert_to_vw_ := Value.bool true,
    vw_ := none, fit_ := false }

/-- A concrete update dict used to instantiate the parameter-merging
claim. -/
def u6 : PMap :=
  [("passes", Value.int 3), ("loss_function", Value.str "logistic")]


theorem splitOnceAux_cons2 (l : List Char) :
    splitOnceAux ['0', ' '] ('0' :: ' ' :: l) = some ([], l) := by
  simp [splitOnceAux, List.isPrefixOf]

theorem data_svmRow (r : List Rat) :
    (svmRow r).data = '0' :: ' ' :: (featStr r).data := by
  simp [svmRow, String.data_append]

/-- Splitting a dumped svmlight line on the first `"0 "` strips exactly the
label column dumped for the all-zero placeholder labels. -/
theorem pySplit1_svmRow (r : List Rat) :
    pySplit1 "0 " (svmRow r) = ["", featStr r] := by
  unfold pySplit1
  rw [data_svmRow]
  rw [show "0 ".data = ['0', ' '] from rfl, splitOnceAux_cons2]

/-- Converting a single numeric row with no label and no weight succeeds
and yields exactly one line carrying the default truth/weight tokens
`1 1` in front of the namespace section. -/
theorem tovw_num1_default (r : List Rat) :
    tovw (.num1 r) none none
      = Except.ok [vwLine (Value.int 1) (Value.int 1) (featStr r)] := by
  simp [tovw, tovwFormat, pyIndex, pySplit1_svmRow, Bind.bind, Except.bind]

theorem predictRow_nrow (s : VWState) (h : Handle) (r : List Rat)
    (hvw : s.vw_ = some h) (hfin : h.finished = false)
    (hconv : pyTruthy s.convert_to_vw_ = true) :
    VW.predictRow s (XElem.nrow r)
      = Except.ok (predVal s,
          { s with vw_ := some { h with tested := h.tested ++ [predLine r] } }) := by
  simp [VW.predictRow, hconv, tovw_num1_default, pyIndex, mkExample, VWState.get_vw,
        hvw, hfin, VWExample.setTestOnly, exLearn, Bind.bind, Except.bind,
        predVal, predLine]

theorem predictLoop_nrow (X : List (List Rat)) :
    ∀ (s : VWState) (h : Handle), s.vw_ = some h → h.finished = false →
    pyTruthy s.convert_to_vw_ = true →
    VW.predictLoop s (X.map XElem.nrow)
      = Except.ok (X.map (fun _ => predVal s),
          { s with vw_ := some { h with tested := h.tested ++ X.map predLine } }) := by
  induction X with
  | nil =>
    intro s h hvw hfin hconv
    obtain ⟨ps, pa, cv, vw, ft⟩ := s
    simp only at hvw
    subst hvw
    simp [VW.predictLoop]
  | cons r rs ih =>
    intro s h hvw hfin hconv
    simp only [List.map_cons, VW.predictLoop, predictRow_nrow s h r hvw hfin hconv,
               Bind.bind, Except.bind]
    rw [ih { s with vw_ := some { h with tested := h.tested ++ [predLine r] } }
          { h with tested := h.tested ++ [predLine r] } rfl (by simpa) (by simpa)]
    simp [predVal]

theorem hFinish_bound (s : VWState) (h : Handle) (hvw : s.vw_ = some h) :
    hFinish s = { s with vw_ := some { h with finished := true } } := by
  simp [hFinish, VWState.get_vw, hvw]

/-- A successful `predict` on a fitted adapter with a bound, unfinished
handle: every row is converted in inference mode, scored test-only, and the
handle leaves the call finalized with its training history intact. -/
theorem predict_ok (s : VWState) (h : Handle) (X : List (List Rat))
    (hfit : s.fit_ = true) (hvw : s.vw_ = some h) (hfin : h.finished = false)
    (hconv : pyTruthy s.convert_to_vw_ = true) :
    VW.predict (X.map XElem.nrow) s
      = Except.ok (X.map (fun _ => predVal s),
          { s with vw_ := some { h with
              tested := h.tested ++ X.map predLine, finished := true } }) := by
  simp only [VW.predict, hfit, Bool.true_eq_false, if_neg, Bind.bind, Except.bind,
             predictLoop_nrow X s h hvw hfin hconv]
  rw [hFinish_bound _ { h with tested := h.tested ++ X.map predLine } rfl]
  simp [hfin]

/-- A `predict` on an adapter whose handle is already finalized fails at
the handle layer on the first example. -/
theorem predict_finished_fails (s : VWState) (h : Handle) (r : List Rat)
    (rest : List XElem) (hfit : s.fit_ = true) (hvw : s.vw_ = some h)
    (hfin : h.finished = true) (hconv : pyTruthy s.convert_to_vw_ = true) :
    VW.predict (XElem.nrow r :: rest) s = Except.error PyErr.handleFinished := by
  simp [VW.predict, hfit, VW.predictLoop, VW.predictRow, hconv, tovw_num1_default,
        pyIndex, mkExample, VWState.get_vw, hvw, hfin, Bind.bind, Except.bind]

theorem pyIndex_err (l : List α) (i : Nat) (h : l.length ≤ i) :
    pyIndex l i = Except.error PyErr.indexError := by
  unfold pyIndex
  rw [List.get?_eq_none.mpr h]

theorem pyIndex_of_lt (l : List α) (i : Nat) (h : i < l.length) :
    ∃ v, pyIndex l i = Except.ok v := by
  cases hg : l.get? i with
  | none =>
    rw [List.get?_eq_none] at hg
    omega
  | some v =>
    refine ⟨v, ?_⟩
    unfold pyIndex
    rw [hg]

theorem tovwFormat_cons (ys : List Value) (idx : Nat) (row : String)
    (rest : List String) :
    tovwFormat ys true [] false idx (row :: rest)
      = Except.bind (pyIndex ys idx) (fun truth =>
          Except.bind (pyIndex (pySplit1 "0 " row) 1) (fun features =>
            Except.bind (tovwFormat ys true [] false (idx + 1) rest) (fun out =>
              Except.ok (vwLine truth (Value.int 1) features :: out)))) := by
  cases hv : pyIndex ys idx with
  | error e => simp [tovwFormat, hv, Bind.bind, Except.bind]
  | ok v =>
    cases hf : pyIndex (pySplit1 "0 " row) 1 with
    | error e => simp [tovwFormat, hv, hf, Bind.bind, Except.bind]
    | ok f =>
      cases ho : tovwFormat ys true [] false (idx + 1) rest with
      | error e => simp [tovwFormat, hv, hf, ho, Bind.bind, Except.bind]
      | ok out => simp [tovwFormat, hv, hf, ho, Bind.bind, Except.bind]

theorem tovwFormat_truth_short (xss : List (List Rat)) :
    ∀ (idx : Nat) (ys : List Value), ys.length < idx + xss.length → xss ≠ [] →
    tovwFormat ys true [] false idx (xss.map svmRow) = Except.error PyErr.indexError := by
  induction xss with
  | nil => intro idx ys h hne; exact absurd rfl hne
  | cons r rest ih =>
    intro idx ys h hne
    rw [List.map_cons, tovwFormat_cons]
    by_cases hidx : idx < ys.length
    · obtain ⟨v, hv⟩ := pyIndex_of_lt ys idx hidx
      have hrest : rest ≠ [] := by
        rintro rfl
        simp at h
        omega
      have hlen : ys.length < (idx + 1) + rest.length := by
        simp at h
        omega
      rw [hv, ih (idx + 1) ys hlen hrest]
      simp [pyIndex, pySplit1_svmRow, Except.bind]
    · have hge : ys.length ≤ idx := by omega
      rw [pyIndex_err ys idx hge]
      simp [Except.bind]

theorem tovwFormat_truth_ok (xss : List (List Rat)) :
    ∀ (idx : Nat) (ys : List Value), idx + xss.length ≤ ys.length →
    ∃ out, tovwFormat ys true [] false idx (xss.map svmRow) = Except.ok out
      ∧ out.length = xss.length := by
  induction xss with
  | nil =>
    intro idx ys h
    exact ⟨[], by simp [tovwFormat], rfl⟩
  | cons r rest ih =>
    intro idx ys h
    have hidx : idx < ys.length := by
      simp at h
      omega
    obtain ⟨v, hv⟩ := pyIndex_of_lt ys idx hidx
    have hlen : (idx + 1) + rest.length ≤ ys.length := by
      simp at h
      omega
    obtain ⟨out, hout, hlen2⟩ := ih (idx + 1) ys hlen
    refine ⟨vwLine v (Value.int 1) (featStr r) :: out, ?_, by simp [hlen2]⟩
    rw [List.map_cons, tovwFormat_cons, hv, hout]
    simp [pyIndex, pySplit1_svmRow, Except.bind]

theorem tovwFormat_cons_w (ws : List Value) (idx : Nat) (row : String)
    (rest : List String) :
    tovwFormat [] false ws true idx (row :: rest)
      = Except.bind (pyIndex ws idx) (fun weight =>
          Except.bind (pyIndex (pySplit1 "0 " row) 1) (fun features =>
            Except.bind (tovwFormat [] false ws true (idx + 1) rest) (fun out =>
              Except.ok (vwLine (Value.int 1) weight features :: out)))) := by
  cases hw : pyIndex ws idx with
  | error e => simp [tovwFormat, hw, Bind.bind, Except.bind]
  | ok w =>
    cases hf : pyIndex (pySplit1 "0 " row) 1 with
    | error e => simp [tovwFormat, hw, hf, Bind.bind, Except.bind]
    | ok f =>
      cases ho : tovwFormat [] false ws true (idx + 1) rest with
      | error e => simp [tovwFormat, hw, hf, ho, Bind.bind, Except.bind]
      | ok out => simp [tovwFormat, hw, hf, ho, Bind.bind, Except.bind]

theorem tovwFormat_cons_tw (ys ws : List Value) (idx : Nat) (row : String)
    (rest : List String) :
    tovwFormat ys true ws true idx (row :: rest)
      = Except.bind (pyIndex ys idx) (fun truth =>
          Except.bind (pyIndex ws idx) (fun weight =>
            Except.bind (pyIndex (pySplit1 "0 " row) 1) (fun features =>
              Except.bind (tovwFormat ys true ws true (idx + 1) rest) (fun out =>
                Except.ok (vwLine truth weight features :: out))))) := by
  cases hv : pyIndex ys idx with
  | error e => simp [tovwFormat, hv, Bind.bind, Except.bind]
  | ok tv =>
    cases hw : pyIndex ws idx with
    | error e => simp [tovwFormat, hv, hw, Bind.bind, Except.bind]
    | ok tw =>
      cases hf : pyIndex (pySplit1 "0 " row) 1 with
      | error e => simp [tovwFormat, hv, hw, hf, Bind.bind, Except.bind]
      | ok f =>
        cases ho : tovwFormat ys true ws true (idx + 1) rest with
        | error e => simp [tovwFormat, hv, hw, hf, ho, Bind.bind, Except.bind]
        | ok out => simp [tovwFormat, hv, hw, hf, ho, Bind.bind, Except.bind]

theorem tovwFormat_w_short (xss : List (List Rat)) :
    ∀ (idx : Nat) (ws : List Value), ws.length < idx + xss.length → xss ≠ [] →
    tovwFormat [] false ws true idx (xss.map svmRow)
      = Except.error PyErr.indexError := by
  induction xss with
  | nil => intro idx ws h hne; exact absurd rfl hne
  | cons r rest ih =>
    intro idx ws h hne
    rw [List.map_cons, tovwFormat_cons_w]
    by_cases hidx : idx < ws.length
    · obtain ⟨v, hv⟩ := pyIndex_of_lt ws idx hidx
      have hrest : rest ≠ [] := by
        rintro rfl
        simp at h
        omega
      have hlen : ws.length < (idx + 1) + rest.length := by
        simp at h
        omega
      rw [hv, ih (idx + 1) ws hlen hrest]
      simp [pyIndex, pySplit1_svmRow, Except.bind]
    · have hge : ws.length ≤ idx := by omega
      rw [pyIndex_err ws idx hge]
      simp [Except.bind]

theorem tovwFormat_w_ok (xss : List (List Rat)) :
    ∀ (idx : Nat) (ws : List Value), idx + xss.length ≤ ws.length →
    ∃ out, tovwFormat [] false ws true idx (xss.map svmRow) = Except.ok out
      ∧ out.length = xss.length := by
  induction xss with
  | nil =>
    intro idx ws h
    exact ⟨[], by simp [tovwFormat], rfl⟩
  | cons r rest ih =>
    intro idx ws h
    have hidx : idx < ws.length := by
      simp at h
      omega
    obtain ⟨v, hv⟩ := pyIndex_of_lt ws idx hidx
    have hlen : (idx + 1) + rest.length ≤ ws.length := by
      simp at h
      omega
    obtain ⟨out, hout, hlen2⟩ := ih (idx + 1) ws hlen
    refine ⟨vwLine (Value.int 1) v (featStr r) :: out, ?_, by simp [hlen2]⟩
    rw [List.map_cons, tovwFormat_cons_w, hv, hout]
    simp [pyIndex, pySplit1_svmRow, Except.bind]

theorem tovwFormat_tw_short (xss : List (List Rat)) :
    ∀ (idx : Nat) (ys ws : List Value),
    (ys.length < idx + xss.length ∨ ws.length < idx + xss.length) → xss ≠ [] →
    tovwFormat ys true ws true idx (xss.map svmRow)
      = Except.error PyErr.indexError := by
  induction xss with
  | nil => intro idx ys ws h hne; exact absurd rfl hne
  | cons r rest ih =>
    intro idx ys ws h hne
    rw [List.map_cons, tovwFormat_cons_tw]
    by_cases hy : idx < ys.length
    · obtain ⟨v, hv⟩ := pyIndex_of_lt ys idx hy
      rw [hv]
      by_cases hw : idx < ws.length
      · obtain ⟨w, hw2⟩ := pyIndex_of_lt ws idx hw
        have hrest : rest ≠ [] := by
          rintro rfl
          simp at h
          rcases h with h | h <;> omega
        have hlen : ys.length < (idx + 1) + rest.length
            ∨ ws.length < (idx + 1) + rest.length := by
          simp at h
          rcases h with h | h
          · exact Or.inl (by omega)
          · exact Or.inr (by omega)
        rw [hw2, ih (idx + 1) ys ws hlen hrest]
        simp [pyIndex, pySplit1_svmRow, Except.bind]
      · rw [pyIndex_err ws idx (by omega)]
        simp [Except.bind]
    · rw [pyIndex_err ys idx (by omega)]
      simp [Except.bind]

theorem tovwFormat_tw_ok (xss : List (List Rat)) :
    ∀ (idx : Nat) (ys ws : List Value), idx + xss.length ≤ ys.length →
    idx + xss.length ≤ ws.length →
    ∃ out, tovwFormat ys true ws true idx (xss.map svmRow) = Except.ok out
      ∧ out.length = xss.length := by
  induction xss with
  | nil =>
    intro idx ys ws hy hw
    exact ⟨[], by simp [tovwFormat], rfl⟩
  | cons r rest ih =>
    intro idx ys ws hy hw
    have hyidx : idx < ys.length := by
      simp at hy
      omega
    have hwidx : idx < ws.length := by
      simp at hw
      omega
    obtain ⟨v, hv⟩ := pyIndex_of_lt ys idx hyidx
    obtain ⟨w, hw2⟩ := pyIndex_of_lt ws idx hwidx
    have hylen : (idx + 1) + rest.length ≤ ys.length := by
      simp at hy
      omega
    have hwlen : (idx + 1) + rest.length ≤ ws.length := by
      simp at hw
      omega
    obtain ⟨out, hout, hlen2⟩ := ih (idx + 1) ys ws hylen hwlen
    refine ⟨vwLine v w (featStr r) :: out, ?_, by simp [hlen2]⟩
    rw [List.map_cons, tovwFormat_cons_tw, hv, hw2, hout]
    simp [pyIndex, pySplit1_svmRow, Except.bind]

theorem optOr_none_left (b : Option Value) : optOr none b = b := rfl

theorem optOr_some (v : Value) (b : Option Value) : optOr (some v) b = some v := rfl

theorem optOr_none_right (a : Option Value) : optOr a none = a := by
  cases a <;> rfl

theorem plookup_pset (m : PMap) (k : String) (v : Value) (k' : String) :
    plookup (pset m k v) k' = if k' = k then some v else plookup m k' := by
  induction m with
  | nil =>
    simp only [pset, plookup]
    by_cases h : k' = k
    · subst h
      simp
    · rw [if_neg (fun c : k = k' => h c.symm), if_neg h]
  | cons p rest ih =>
    by_cases hp : p.1 = k
    · simp only [pset, if_pos hp, plookup]
      by_cases h : k' = k
      · subst h
        simp
      · rw [if_neg (fun c : k = k' => h c.symm), if_neg h,
            if_neg (fun c : p.1 = k' => h (hp.symm.trans c).symm)]
    · simp only [pset, if_neg hp, plookup, ih]
      by_cases hpk : p.1 = k'
      · have hk : ¬k' = k := fun c => hp (hpk.trans c)
        rw [if_pos hpk, if_neg hk, if_pos hpk]
      · rw [if_neg hpk, if_neg hpk]

theorem mem_keys_pset (m : PMap) (k : String) (v : Value) (a : String)
    (h : a ∈ (pset m k v).map Prod.fst) : a = k ∨ a ∈ m.map Prod.fst := by
  induction m with
  | nil =>
    simp [pset] at h
    exact Or.inl h
  | cons p rest ih =>
    by_cases hp : p.1 = k
    · simp only [pset, if_pos hp, List.map_cons, List.mem_cons] at h
      rcases h with h | h
      · exact Or.inl h
      · exact Or.inr (by simp [h])
    · simp only [pset, if_neg hp, List.map_cons, List.mem_cons] at h
      rcases h with h | h
      · exact Or.inr (by simp [h])
      · rcases ih h with h2 | h2
        · exact Or.inl h2
        · exact Or.inr (by simp [h2])

theorem pset_nodup (m : PMap) (k : String) (v : Value)
    (h : (m.map Prod.fst).Nodup) : ((pset m k v).map Prod.fst).Nodup := by
  induction m with
  | nil => simp [pset]
  | cons p rest ih =>
    simp only [List.map_cons, List.nodup_cons] at h
    by_cases hp : p.1 = k
    · simp only [pset, if_pos hp, List.map_cons, List.nodup_cons]
      exact ⟨hp ▸ h.1, h.2⟩
    · simp only [pset, if_neg hp, List.map_cons, List.nodup_cons]
      refine ⟨fun c => ?_, ih h.2⟩
      rcases mem_keys_pset rest k v p.1 c with h2 | h2
      · exact hp h2
      · exact h.1 h2

theorem plookup_none_of_not_mem (m : PMap) (k : String)
    (h : k ∉ m.map Prod.fst) : plookup m k = none := by
  induction m with
  | nil => rfl
  | cons p rest ih =>
    simp only [List.map_cons, List.mem_cons] at h
    push_neg at h
    simp only [plookup, if_neg (fun c : p.1 = k => h.1 c.symm)]
    exact ih h.2

theorem plookup_foldl_pset (U : PMap) :
    ∀ (m : PMap) (k : String), (U.map Prod.fst).Nodup →
    plookup (U.foldl (fun m p => pset m p.1 p.2) m) k
      = optOr (plookup U k) (plookup m k) := by
  induction U with
  | nil =>
    intro m k _
    simp [plookup, optOr_none_left]
  | cons q rest ih =>
    intro m k hnd
    simp only [List.map_cons, List.nodup_cons] at hnd
    simp only [List.foldl_cons]
    rw [ih (pset m q.1 q.2) k hnd.2, plookup_pset]
    by_cases h : k = q.1
    · subst h
      rw [if_pos rfl, plookup_none_of_not_mem rest q.1 hnd.1, optOr_none_left]
      simp [plookup, optOr_some]
    · rw [if_neg h]
      simp only [plookup, if_neg (fun c : q.1 = k => h c.symm)]

theorem foldl_pset_nodup (U : PMap) :
    ∀ (m : PMap), (m.map Prod.fst).Nodup →
    ((U.foldl (fun m p => pset m p.1 p.2) m).map Prod.fst).Nodup := by
  induction U with
  | nil =>
    intro m hm
    simpa using hm
  | cons q rest ih =>
    intro m hm
    exact ih _ (pset_nodup m q.1 q.2 hm)

theorem pset_all (m : PMap) (k : String) (v : Value) (P : String × Value → Bool)
    (hm : m.all P = true) (hk : P (k, v) = true) : (pset m k v).all P = true := by
  induction m with
  | nil => simp [pset, hk]
  | cons p rest ih =>
    simp only [List.all_cons, Bool.and_eq_true] at hm
    by_cases hp : p.1 = k
    · simp [pset, hp, hk, hm.2]
    · simp [pset, hp, hm.1, ih hm.2]

theorem foldl_pset_all (U : PMap) (P : String × Value → Bool) :
    ∀ (m : PMap), m.all P = true → U.all P = true →
    (U.foldl (fun m p => pset m p.1 p.2) m).all P = true := by
  induction U with
  | nil =>
    intro m hm _
    simpa using hm
  | cons q rest ih =>
    intro m hm hU
    simp only [List.all_cons, Bool.and_eq_true] at hU
    exact ih _ (pset_all m q.1 q.2 P hm hU.1) hU.2

theorem plookup_premove (m : PMap) (k k' : String) :
    plookup (premove m k) k' = if k' = k then none else plookup m k' := by
  induction m with
  | nil =>
    by_cases h : k' = k <;> simp [premove, plookup, h]
  | cons p rest ih =>
    by_cases hp : p.1 = k
    · simp only [premove, if_pos hp, ih, plookup]
      by_cases h : k' = k
      · rw [if_pos h, if_pos h]
      · rw [if_neg h, if_neg h, if_neg (fun c : p.1 = k' => h (hp.symm.trans c).symm)]
    · simp only [premove, if_neg hp, plookup]
      by_cases hpk : p.1 = k'
      · have h : ¬k' = k := fun c => hp (hpk.trans c)
        rw [if_pos hpk, if_neg h, if_pos hpk]
      · rw [if_neg hpk, ih, if_neg hpk]

theorem plookup_append (a b : PMap) (k : String) :
    plookup (a ++ b) k = optOr (plookup a k) (plookup b k) := by
  induction a with
  | nil => simp [plookup, optOr_none_left]
  | cons p rest ih =>
    simp only [List.cons_append, plookup]
    by_cases h : p.1 = k
    · rw [if_pos h, if_pos h, optOr_some]
    · rw [if_neg h, if_neg h]
      exact ih

theorem set_params_eq (U : PMap) (s : VWState) :
    VW.set_params U s = VW.init (mergedMap U s) := rfl

theorem init_ok (args : PMap) (hall : args.all (fun p => validKey p.1) = true) :
    VW.init args = Except.ok
      { params := premove (premove (initParams0 args) "passes") "convert_to_vw",
        passes_ := (plookup (initParams0 args) "passes").getD (Value.int 1),
        convert_to_vw_ :=
          (plookup (premove (initParams0 args) "passes") "convert_to_vw").getD
            (Value.bool true),
        vw_ := none, fit_ := false } := by
  unfold VW.init initParams0
  rw [if_pos hall]

theorem plookup_mergedMap (U : PMap) (s : VWState) (k : String)
    (hUnd : (U.map Prod.fst).Nodup) :
    plookup (mergedMap U s) k =
      if k = "passes" then optOr (plookup U "passes") (some s.passes_)
      else if k = "convert_to_vw" then
        optOr (plookup U "convert_to_vw") (some s.convert_to_vw_)
      else optOr (plookup U k) (plookup s.params k) := by
  have hL1 : ∀ k', plookup (updMap U s) k'
      = optOr (plookup U k') (plookup s.params k') :=
    fun k' => plookup_foldl_pset U s.params k' hUnd
  unfold mergedMap updMapP
  by_cases hk1 : k = "passes"
  · subst hk1
    rcases hUc : plookup U "convert_to_vw" with _ | w <;>
      rcases hUp : plookup U "passes" with _ | v <;>
        simp [hUc, hUp, plookup_pset, hL1, optOr]
  · by_cases hk2 : k = "convert_to_vw"
    · subst hk2
      rcases hUc : plookup U "convert_to_vw" with _ | w <;>
        rcases hUp : plookup U "passes" with _ | v <;>
          simp [hUc, hUp, plookup_pset, hL1, optOr, hk1]
    · rcases hUc : plookup U "convert_to_vw" with _ | w <;>
        rcases hUp : plookup U "passes" with _ | v <;>
          simp [hUc, hUp, plookup_pset, hL1, optOr, hk1, hk2]

theorem plookup_initParams0 (args : PMap) (k : String)
    (hnd : (args.map Prod.fst).Nodup) :
    plookup (initParams0 args) k
      = optOr (plookup args k)
          (if "quiet" = k then some (Value.bool true) else none) := by
  unfold initParams0
  rw [plookup_foldl_pset args _ k hnd]
  simp [plookup]

theorem mergedMap_nodup (U : PMap) (s : VWState)
    (hsnd : (s.params.map Prod.fst).Nodup) :
    ((mergedMap U s).map Prod.fst).Nodup := by
  have h1 : ((updMap U s).map Prod.fst).Nodup := by
    unfold updMap
    exact foldl_pset_nodup U s.params hsnd
  have h2 : ((updMapP U s).map Prod.fst).Nodup := by
    unfold updMapP
    split
    · exact pset_nodup _ _ _ h1
    · exact h1
  unfold mergedMap
  split
  · exact pset_nodup _ _ _ h2
  · exact h2

theorem mergedMap_all (U : PMap) (s : VWState)
    (hsv : s.params.all (fun p => validKey p.1) = true)
    (hUv : U.all (fun p => validKey p.1) = true) :
    (mergedMap U s).all (fun p => validKey p.1) = true := by
  have h1 : (updMap U s).all (fun p => validKey p.1) = true := by
    unfold updMap
    exact foldl_pset_all U _ s.params hsv hUv
  have h2 : (updMapP U s).all (fun p => validKey p.1) = true := by
    unfold updMapP
    split
    · exact pset_all _ _ _ _ h1 (show validKey "passes" = true by decide)
    · exact h1
  unfold mergedMap
  split
  · exact pset_all _ _ _ _ h2 (show validKey "convert_to_vw" = true by decide)
  · exact h2

/-- Claim C6: `get_params` immediately after `set_params(U)` returns, at
every key, exactly the pre-update effective map merged with `U` (entries of
`U` win), with `passes` and `convert_to_vw` keeping their pre-update values
unless present in `U`.  Hypotheses: the dicts are well-formed (unique,
constructor-recognized keys; `quiet` present and the two adapter keys
absent from the vw-param dict), as holds for every constructed adapter. -/
theorem claim_C6_set_get_merge (s : VWState) (U : PMap) (k : String)
    (hUnd : (U.map Prod.fst).Nodup)
    (hsnd : (s.params.map Prod.fst).Nodup)
    (hsv : s.params.all (fun p => validKey p.1) = true)
    (hUv : U.all (fun p => validKey p.1) = true)
    (hp : plookup s.params "passes" = none)
    (hc : plookup s.params "convert_to_vw" = none)
    (hq : (plookup s.params "quiet").isSome = true) :
    (VW.set_params U s).map (fun t => plookup (VW.get_params t) k)
      = Except.ok (optOr (plookup U k) (plookup (VW.get_params s) k)) := by
  rw [set_params_eq, init_ok (mergedMap U s) (mergedMap_all U s hsv hUv)]
  simp only [Except.map]
  have hmnd := mergedMap_nodup U s hsnd
  have hmL := fun k' => plookup_mergedMap U s k' hUnd
  have hIL := fun k' => plookup_initParams0 (mergedMap U s) k' hmnd
  unfold VW.get_params
  simp only [plookup_append, plookup_premove]
  by_cases hk1 : k = "passes"
  · subst hk1
    rw [if_neg (by decide : ¬("passes" : String) = "convert_to_vw"), if_pos rfl]
    simp only [optOr_none_left, plookup, hp]
    rw [hIL "passes", hmL "passes"]
    simp only [if_pos rfl, if_neg (by decide : ¬("quiet" : String) = "passes")]
    rcases hUp : plookup U "passes" with _ | v <;> simp [hUp, optOr, hp]
  · by_cases hk2 : k = "convert_to_vw"
    · subst hk2
      rw [if_pos rfl]
      simp only [optOr_none_left, plookup, hc]
      rw [hIL "convert_to_vw", hmL "convert_to_vw"]
      simp only [if_neg (by decide : ¬("convert_to_vw" : String) = "passes"),
                 if_pos rfl,
                 if_neg (by decide : ¬("quiet" : String) = "convert_to_vw")]
      rcases hUc : plookup U "convert_to_vw" with _ | w <;> simp [hUc, optOr, hc]
    · rw [if_neg hk2, if_neg hk1, hIL k, hmL k]
      rw [if_neg hk1, if_neg hk2]
      simp only [plookup, if_neg (fun c : ("passes" : String) = k => hk1 c.symm),
                 if_neg (fun c : ("convert_to_vw" : String) = k => hk2 c.symm)]
      by_cases hk3 : ("quiet" : String) = k
      · rw [if_pos hk3]
        obtain ⟨w, hw⟩ := Option.isSome_iff_exists.mp hq
        rw [← hk3] at *
        rw [hw]
        rcases hUq : plookup U "quiet" with _ | u <;> simp [optOr]
      · rw [if_neg hk3]
        simp [optOr_none_right]

theorem predLine_head (r : List Rat) : (predLine r).data.head? = some '1' := rfl

/-- Claim C1 (counterexample): for the dense row `[1.0, 0.0, 3.0]` with
label `1.0` and weight `1.0`, `tovw` omits the zero column but emits
0-based indices in `%.16g` form — the line is `1.0 1.0 | 0:1 2:3`, not the
claimed 1-based `1.0 1.0 | 1:1.0 3:3.0`. -/
theorem claim_C1_counterexample :
    tovw (.num1 [1, 0, 3]) (some (.vec [Value.float 1])) (some [Value.float 1])
      = Except.ok ["1.0 1.0 | 0:1 2:3"]
    ∧ tovw (.num1 [1, 0, 3]) (some (.vec [Value.float 1])) (some [Value.float 1])
      ≠ Except.ok ["1.0 1.0 | 1:1.0 3:3.0"] := by
  exact ⟨by decide, by decide⟩

/-- Claim C1 (amended): for the dense row `[1.0, 0.0, 3.0]` with label
`1.0` and weight `1.0`, `tovw` returns one labeled line whose feature
section omits the zero-valued column and lists 0-based indices with
`%.16g`-formatted values — exactly the pairs `0:1 2:3` — with the
namespace defaulting to the empty string. -/
theorem claim_C1_amended :
    tovw (.num1 [1, 0, 3]) (some (.vec [Value.float 1])) (some [Value.float 1])
      = Except.ok ["1.0 1.0 | 0:1 2:3"] := by
  decide

/-- Claim C2 (code bug): `fit` passes the whole `sample_weight` vector to
every per-row `tovw` call, so each submitted line carries
`sample_weight[0]` — here both learned lines have weight `5.0`, while the
converter's encoding of row 1 with its own weight `7.0` would be
`1.0 7.0 | 0:2`. -/
theorem claim_C2_weight_bug :
    (VW.fit [XElem.nrow [1], XElem.nrow [2]]
        (some [Value.float 1, Value.float 1])
        (some [Value.float 5, Value.float 7]) sDefault).map
        (fun t => (t.vw_.getD Handle.new).learned)
      = Except.ok ["1.0 5.0 | 0:1", "1.0 5.0 | 0:2"]
    ∧ tovw (.num1 [2]) (some (.scalar (Value.float 1))) (some [Value.float 7])
      = Except.ok ["1.0 7.0 | 0:2"]
    ∧ ("1.0 5.0 | 0:2" : String) ≠ "1.0 7.0 | 0:2" := by
  exact ⟨by decide, by decide, by decide⟩

/-- Claim C3 (counterexample): in convert mode, `predict` submits the line
`1 1 | 0:2` for the row `[2.0]` — the default truth/weight tokens `1 1`
stand in front of the namespace section, refuting "no truth/weight tokens
are placed in front of the namespace section". -/
theorem claim_C3_counterexample :
    (VW.predict [XElem.nrow [2]] sFitted).map
        (fun r => (r.2.vw_.getD Handle.new).tested)
      = Except.ok ["1 1 | 0:2"]
    ∧ ("1 1 | 0:2" : String).data.head? = some '1'
    ∧ ('1' : Char) ≠ '|' := by
  exact ⟨by decide, by decide, by decide⟩

/-- Claim C3 (amended): for every fitted, bound, unfinished adapter in
convert mode, `predict` converts each row through the Format Converter
with the label and weight arguments omitted — so the submitted line starts
with the default truth/weight tokens `1 1` rather than with the namespace
bar — and submits it test-only, leaving the handle's weight-update count
unchanged (and finally finalizing the handle). -/
theorem claim_C3_amended (s : VWState) (h : Handle) (X : List (List Rat))
    (hfit : s.fit_ = true) (hvw : s.vw_ = some h) (hfin : h.finished = false)
    (hconv : pyTruthy s.convert_to_vw_ = true) :
    VW.predict (X.map XElem.nrow) s
      = Except.ok (X.map (fun _ => predVal s),
          { s with vw_ := some { h with
              tested := h.tested ++ X.map predLine, finished := true } })
    ∧ (∀ r ∈ X, tovw (.num1 r) none none = Except.ok [predLine r])
    ∧ (∀ r ∈ X, (predLine r).data.head? = some '1') := by
  refine ⟨predict_ok s h X hfit hvw hfin hconv, ?_, ?_⟩
  · intro r _
    exact tovw_num1_default r
  · intro r _
    exact predLine_head r

/-- Witness for claim C3 (amended) at the fitted default adapter and the
single row `[2.0]`. -/
theorem claim_C3_amended_witness :
    sFitted.fit_ = true
    ∧ VW.predict [XElem.nrow [2]] sFitted
        = Except.ok ([predVal sFitted],
            { sFitted with vw_ := some { Handle.new with
                tested := [predLine [2]], finished := true } }) := by
  refine ⟨rfl, ?_⟩
  have h := claim_C3_amended sFitted Handle.new [[2]] rfl rfl rfl rfl
  simpa using h.1

/-- Claim C4: a successful `predict` on a fitted adapter with a bound,
unfinished handle finalizes the handle (preserving its training history),
and a second `predict` on the same adapter without rebinding fails at the
handle layer with the handle-finished error — the handle is not silently
re-created. -/
theorem claim_C4_predict_finalizes (s : VWState) (h : Handle)
    (X : List (List Rat)) (hfit : s.fit_ = true) (hvw : s.vw_ = some h)
    (hfin : h.finished = false) (hconv : pyTruthy s.convert_to_vw_ = true)
    (hne : X ≠ []) :
    ∃ ys s', VW.predict (X.map XElem.nrow) s = Except.ok (ys, s')
      ∧ (∃ h', s'.vw_ = some h' ∧ h'.finished = true ∧ h'.learned = h.learned)
      ∧ VW.predict (X.map XElem.nrow) s' = Except.error PyErr.handleFinished := by
  refine ⟨_, _, predict_ok s h X hfit hvw hfin hconv, ⟨_, rfl, rfl, rfl⟩, ?_⟩
  match X, hne with
  | x :: xs, _ =>
    rw [List.map_cons]
    exact predict_finished_fails _ _ x (xs.map XElem.nrow) hfit rfl rfl hconv

/-- Witness for claim C4 at the fitted default adapter and the single row
`[2.0]`. -/
theorem claim_C4_witness :
    sFitted.fit_ = true
    ∧ (∃ ys s', VW.predict [XElem.nrow [2]] sFitted = Except.ok (ys, s')
        ∧ (∃ h', s'.vw_ = some h' ∧ h'.finished = true
            ∧ h'.learned = Handle.new.learned)
        ∧ VW.predict [XElem.nrow [2]] s' = Except.error PyErr.handleFinished) := by
  refine ⟨rfl, ?_⟩
  have h := claim_C4_predict_finalizes sFitted Handle.new [[2]] rfl rfl rfl rfl
    (by decide)
  simpa using h

/-- Claim C5: `predict` on an adapter whose fitted flag is unset fails with
`NotFittedError`, for every input, before any row is converted or
submitted. -/
theorem claim_C5_not_fitted (X : List XElem) (s : VWState)
    (h : s.fit_ = false) :
    VW.predict X s = Except.error PyErr.notFittedError := by
  simp [VW.predict, h]

/-- Witness for claim C5 at a freshly constructed adapter. -/
theorem claim_C5_witness :
    sDefault.fit_ = false
    ∧ VW.predict [XElem.nrow [1, 2]] sDefault
        = Except.error PyErr.notFittedError :=
  ⟨rfl, claim_C5_not_fitted _ _ rfl⟩

/-- Witness for claim C6 at a constructed adapter with one engine option
and an update dict setting `passes` and `loss_function`. -/
theorem claim_C6_witness :
    ((u6.map Prod.fst).Nodup ∧ (s6.params.map Prod.fst).Nodup
      ∧ s6.params.all (fun p => validKey p.1) = true
      ∧ u6.all (fun p => validKey p.1) = true
      ∧ plookup s6.params "passes" = none
      ∧ plookup s6.params "convert_to_vw" = none
      ∧ (plookup s6.params "quiet").isSome = true)
    ∧ (VW.set_params u6 s6).map (fun t => plookup (VW.get_params t) "passes")
        = Except.ok (optOr (plookup u6 "passes")
            (plookup (VW.get_params s6) "passes")) := by
  refine ⟨⟨by decide, by decide, by decide, by decide, by decide, by decide,
    by decide⟩, ?_⟩
  exact claim_C6_set_get_merge s6 u6 "passes" (by decide) (by decide) (by decide)
    (by decide) (by decide) (by decide) (by decide)

/-- Claim C7 (counterexample): `tovw` performs no shape check — converting
one row with a two-element label vector, or with a two-element weight
vector, succeeds (returning a complete line built from the first
label/weight) instead of failing with a shape-mismatch error. -/
theorem claim_C7_counterexample :
    tovw (.num1 [1]) (some (.vec [Value.float 1, Value.float 2])) none
      = Except.ok ["1.0 1 | 0:1"]
    ∧ (tovw (.num1 [1]) (some (.vec [Value.float 1, Value.float 2])) none).isOk
      = true
    ∧ tovw (.num1 [1]) none (some [Value.float 3, Value.float 4])
      = Except.ok ["1 3.0 | 0:1"]
    ∧ (tovw (.num1 [1]) none (some [Value.float 3, Value.float 4])).isOk
      = true := by
  exact ⟨by decide, by decide, by decide, by decide⟩

/-- Claim C7 (amended): `tovw` has no dedicated shape check.  Whichever of
the label/weight vectors is provided and is shorter than the (nonempty,
rectangular) row batch makes the conversion fail with a generic
`IndexError` at the first missing index (and nothing is returned); when
every provided vector is at least as long as the batch, conversion
succeeds, silently ignoring the extra entries, and returns one line per
row. -/
theorem claim_C7_amended (xss : List (List Rat)) (ys ws : List Value)
    (hrect : rectangular xss = true) (hne : xss ≠ []) :
    (ys.length < xss.length →
      tovw (.num2 xss) (some (.vec ys)) none = Except.error PyErr.indexError)
    ∧ (xss.length ≤ ys.length →
      ∃ out, tovw (.num2 xss) (some (.vec ys)) none = Except.ok out
        ∧ out.length = xss.length)
    ∧ (ws.length < xss.length →
      tovw (.num2 xss) none (some ws) = Except.error PyErr.indexError)
    ∧ (xss.length ≤ ws.length →
      ∃ out, tovw (.num2 xss) none (some ws) = Except.ok out
        ∧ out.length = xss.length)
    ∧ (ys.length < xss.length ∨ ws.length < xss.length →
      tovw (.num2 xss) (some (.vec ys)) (some ws)
        = Except.error PyErr.indexError)
    ∧ (xss.length ≤ ys.length → xss.length ≤ ws.length →
      ∃ out, tovw (.num2 xss) (some (.vec ys)) (some ws) = Except.ok out
        ∧ out.length = xss.length) := by
  refine ⟨?_, ?_, ?_, ?_, ?_, ?_⟩
  · intro hlt
    unfold tovw
    simp only [hrect, if_true, if_neg hne, Option.isSome, Option.map, Option.getD,
               PyArr.to1d]
    exact tovwFormat_truth_short xss 0 ys (by omega) hne
  · intro hle
    unfold tovw
    simp only [hrect, if_true, if_neg hne, Option.isSome, Option.map, Option.getD,
               PyArr.to1d]
    exact tovwFormat_truth_ok xss 0 ys (by omega)
  · intro hlt
    unfold tovw
    simp only [hrect, if_true, if_neg hne, Option.isSome, Option.map, Option.getD,
               PyArr.to1d]
    exact tovwFormat_w_short xss 0 ws (by omega) hne
  · intro hle
    unfold tovw
    simp only [hrect, if_true, if_neg hne, Option.isSome, Option.map, Option.getD,
               PyArr.to1d]
    exact tovwFormat_w_ok xss 0 ws (by omega)
  · intro hlt
    unfold tovw
    simp only [hrect, if_true, if_neg hne, Option.isSome, Option.map, Option.getD,
               PyArr.to1d]
    refine tovwFormat_tw_short xss 0 ys ws ?_ hne
    rcases hlt with h | h
    · exact Or.inl (by omega)
    · exact Or.inr (by omega)
  · intro hy hw
    unfold tovw
    simp only [hrect, if_true, if_neg hne, Option.isSome, Option.map, Option.getD,
               PyArr.to1d]
    exact tovwFormat_tw_ok xss 0 ys ws (by omega) (by omega)

/-- Witness for claim C7 (amended): two rows with a single label, with a
single weight, and with a single weight alongside enough labels all fail
with `IndexError`. -/
theorem claim_C7_witness :
    (rectangular [[1], [2]] = true ∧ ([[1], [2]] : List (List Rat)) ≠ [])
    ∧ tovw (.num2 [[1], [2]]) (some (.vec [Value.float 1])) none
        = Except.error PyErr.indexError
    ∧ tovw (.num2 [[1], [2]]) none (some [Value.float 5])
        = Except.error PyErr.indexError
    ∧ tovw (.num2 [[1], [2]]) (some (.vec [Value.float 1, Value.float 2]))
          (some [Value.float 5])
        = Except.error PyErr.indexError := by
  have h := claim_C7_amended [[1], [2]] [Value.float 1] [Value.float 5]
    (by decide) (by decide)
  have h2 := claim_C7_amended [[1], [2]] [Value.float 1, Value.float 2]
    [Value.float 5] (by decide) (by decide)
  exact ⟨⟨by decide, by decide⟩, h.1 (by decide), h.2.2.1 (by decide),
    h2.2.2.2.2.1 (Or.inr (by decide))⟩

/-- Claim C8 (code bug): the sanitization branch of `tovw` is broken —
`for row in rows` iterates the *integer* row count, so any string-dtype
input raises `TypeError` before any substitution; the module's own
`INVALID_CHARS` substitution, had it run, would collapse each run of
reserved characters to a single `.`, mapping `"a|b:c d\ne"` to
`"a.b.c.d.e"` as the claim states. -/
theorem claim_C8_sanitize_bug :
    tovw (.str2 [["a|b:c d\ne"]]) none none = Except.error PyErr.typeError
    ∧ pySub "a|b:c d\ne" = "a.b.c.d.e" := by
  exact ⟨by decide, by decide⟩

/-- Claim C9 (counterexample): on an unbound adapter, `transform` is not a
no-op on the handle — `self.get_vw()` instantiates a fresh engine handle
and `transform` immediately finalizes it. -/
theorem claim_C9_counterexample :
    sDefault.vw_ = none
    ∧ (VW.transform (0 : Nat) sDefault).2.vw_
        = some { finished := true, learned := [], tested := [],
                 weightUpdates := 0 }
    ∧ (VW.transform (0 : Nat) sDefault).2.vw_ ≠ none := by
  exact ⟨rfl, by decide, by decide⟩

/-- Claim C9 (amended): `transform(X)` binds the handle if unbound
(instantiating the engine) and then finalizes it unless it is already
finished — it is a no-op on the handle only in the bound-and-finished
case — and returns `X` itself unchanged. -/
theorem claim_C9_amended {α : Type} (X : α) (s : VWState) :
    VW.transform X s
      = (X, { s with
          vw_ := some { s.vw_.getD Handle.new with finished := true } }) := by
  obtain ⟨ps, pa, cv, vw, ft⟩ := s
  cases vw with
  | none => rfl
  | some h =>
    obtain ⟨f, le, te, wu⟩ := h
    cases f <;> rfl

/-- Claim C10: in convert mode (with at least one pass), `fit` with no
label vector fails with a built-in `TypeError` on the first row — `y[idx]`
subscripts `None` — rather than training with the default label `1`, even
though `tovw` itself accepts an absent label and defaults the truth token
to `1`. -/
theorem claim_C10_fit_requires_y (s : VWState) (r : List Rat)
    (rest : List XElem) (sw : Option (List Value)) (n : Int)
    (hconv : pyTruthy s.convert_to_vw_ = true)
    (hp : s.passes_ = Value.int n) (hn : 1 ≤ n) :
    VW.fit (XElem.nrow r :: rest) none sw s = Except.error PyErr.typeError
    ∧ tovw (.num1 r) none none
        = Except.ok [vwLine (Value.int 1) (Value.int 1) (featStr r)] := by
  constructor
  · unfold VW.fit pyRangeCount
    rw [hp]
    obtain ⟨m, hm⟩ : ∃ m, n.toNat = m + 1 := ⟨n.toNat - 1, by omega⟩
    simp only [Bind.bind, Except.bind, hm]
    unfold VW.fitLoop VW.fitPass VW.fitRowLine
    simp [hconv, Bind.bind, Except.bind]
  · exact tovw_num1_default r

/-- Witness for claim C10 at the default adapter (one pass, convert mode)
and the row `[1.0, 0.0, 3.0]`. -/
theorem claim_C10_witness :
    (pyTruthy sDefault.convert_to_vw_ = true
      ∧ sDefault.passes_ = Value.int 1 ∧ (1 : Int) ≤ 1)
    ∧ VW.fit [XElem.nrow [1, 0, 3]] none none sDefault
        = Except.error PyErr.typeError
    ∧ tovw (.num1 [1, 0, 3]) none none
        = Except.ok [vwLine (Value.int 1) (Value.int 1) (featStr [1, 0, 3])] := by
  refine ⟨⟨rfl, rfl, by omega⟩, ?_, ?_⟩
  · exact (claim_C10_fit_requires_y sDefault [1, 0, 3] [] none 1 rfl rfl
      (by omega)).1
  · exact (claim_C10_fit_requires_y sDefault [1, 0, 3] [] none 1 rfl rfl
      (by omega)).2
